import Mathlib

/-!
Verification development for the NAMASTE→ICD-11 mapping core
(`app/api/services/mapping.py` and `app/api/endpoints/bulk_mapping.py`).

Shallow embedding: Python float scores are modelled exactly as rationals
(all score arithmetic in the source uses short decimal constants, so the
threshold comparisons behave identically); the asynchronous search
collaborator is modelled as an oracle `String → Except String (List ICD11Term)`
(`.error` models a raised exception for that query); the service's
`mapping_cache` dict is modelled as an association list where the most
recent write shadows older entries.
-/

namespace NamasteICD

/-- Model of `ICD11Term` from `app/api/models/common.py` (fields relevant to mapping). -/
structure ICD11Term where
  id : String := ""
  code : String
  title : String
  category : String := ""
  subcategory : String := ""
  sys : String := "ICD11_BIO"
  sys_name : String := "Biomedicine"
  description : String := ""
  synonyms : List String := []
  uri : String := ""
deriving DecidableEq, Repr

/-- Model of `NAMASTETerm` from `app/api/models/common.py` (fields relevant to mapping). -/
structure NAMASTETerm where
  id : String
  term : String
  ayush_sys : String := "Ayurveda"
  synonyms : List String := []
deriving DecidableEq, Repr

/-- Model of `MappingResult` from `app/api/models/common.py`; the `created_at`
timestamp carries no information relevant to any property and is omitted. -/
structure MappingResult where
  namaste_term : NAMASTETerm
  icd11_matches : List ICD11Term
  confidence_score : ℚ
  mapping_method : String
deriving DecidableEq, Repr

/-- Does the second character list start with the first one? -/
def charsStartWith : List Char → List Char → Bool
  | [], _ => true
  | _ :: _, [] => false
  | a :: as, b :: bs => a = b && charsStartWith as bs

/-- Occurrence of `needle` anywhere in `hay` (Python's `needle in hay`). -/
def charsContain (needle : List Char) : List Char → Bool
  | [] => charsStartWith needle []
  | c :: t => charsStartWith needle (c :: t) || charsContain needle t

/-- Python `str.lower()` (ASCII case folding), character by character. -/
def lowerChars (s : String) : List Char := s.toList.map Char.toLower

/-- Python `str.strip()`: drop leading and trailing whitespace. -/
def trimChars (l : List Char) : List Char :=
  ((l.dropWhile Char.isWhitespace).reverse.dropWhile Char.isWhitespace).reverse

/-- The normalization `term.lower().strip()` applied by the scorer. -/
def normChars (s : String) : List Char := trimChars (lowerChars s)

/-- Helper for Python `str.split()`: accumulate the current word (reversed)
while walking the characters. -/
def splitWsAux : List Char → List Char → List (List Char)
  | [], acc => if acc = [] then [] else [acc.reverse]
  | c :: rest, acc =>
    if c.isWhitespace then
      if acc = [] then splitWsAux rest [] else acc.reverse :: splitWsAux rest []
    else splitWsAux rest (c :: acc)

/-- Python `str.split()` with no argument: split on whitespace runs,
discarding empty pieces. -/
def wordsOf (l : List Char) : List (List Char) := splitWsAux l []

/-- Model of `MappingService.calculate_similarity_score` (mapping.py lines 45–72):
empty-input guard on the raw inputs, then normalized exact match (1.0),
substring containment (0.7–0.9 scaled by length ratio), else word-set
Jaccard similarity. -/
def calculate_similarity_score (term1 term2 : String) : ℚ :=
  if term1 = "" ∨ term2 = "" then 0
  else
    let t1 := normChars term1
    let t2 := normChars term2
    if t1 = t2 then 1
    else if charsContain t1 t2 || charsContain t2 t1 then
      let shorter : ℚ := min t1.length t2.length
      let longer : ℚ := max t1.length t2.length
      7/10 + (shorter / longer) * (2/10)
    else
      let words1 := (wordsOf t1).dedup
      let words2 := (wordsOf t2).dedup
      if words1 = [] ∨ words2 = [] then 0
      else
        let inter := words1.filter (fun w => w ∈ words2)
        let uni := (words1 ++ words2).dedup
        if uni = [] then 0 else (inter.length : ℚ) / (uni.length : ℚ)

/-- Query list issued by `map_namaste_to_icd11`: the main term
(line 90, unconditionally), then up to 3 synonyms, each only when
non-empty and not whitespace-only (lines 106–113). -/
def queriesOf (t : NAMASTETerm) : List String :=
  t.term :: (t.synonyms.take 3).filter (fun s => s ≠ "" ∧ s.trim ≠ "")

/-- The ICD-11 search collaborator: per query either a candidate list or a
raised exception (modelled as its message). -/
abbrev SearchOracle : Type := String → Except String (List ICD11Term)

/-- Candidate collection (mapping.py lines 86–120): each query's results are
appended in query-issuance order; a failing query contributes its error
message to `search_errors` instead of aborting. -/
def collectResults (search : SearchOracle) : List String → List ICD11Term × List String
  | [] => ([], [])
  | q :: rest =>
    let p := collectResults search rest
    match search q with
    | .ok l => (l ++ p.1, p.2)
    | .error e => (p.1, e :: p.2)

/-- Synonym cross-match rescoring (mapping.py lines 153–161): for every
non-empty (source synonym, candidate synonym) pair, dampen the pairwise
similarity by 0.95 and keep the running maximum. -/
def synonymBoost (nsyns csyns : List String) (score : ℚ) : ℚ :=
  nsyns.foldl (fun acc ns =>
    if ns = "" then acc
    else csyns.foldl (fun acc2 cs =>
      if cs = "" then acc2
      else max acc2 (calculate_similarity_score ns cs * (19/20))) acc) score

/-- Final score of one candidate (mapping.py lines 149–161): base score
between the source's primary term and the candidate title, improved by the
synonym cross-match only when both synonym lists are non-empty. -/
def finalScore (t : NAMASTETerm) (e : ICD11Term) : ℚ :=
  let base := calculate_similarity_score t.term e.title
  if t.synonyms ≠ [] ∧ e.synonyms ≠ [] then synonymBoost t.synonyms e.synonyms base
  else base

/-- The fused dedup/score/filter loop (mapping.py lines 140–166): skip a
candidate whose code is empty or already seen, otherwise record the code as
seen, score it, and keep it iff its score reaches the 0.3 threshold. -/
def scoreCandidates (t : NAMASTETerm) : List ICD11Term → List String → List (ℚ × ICD11Term)
  | [], _ => []
  | e :: rest, seen =>
    if e.code = "" ∨ e.code ∈ seen then scoreCandidates t rest seen
    else
      let s := finalScore t e
      if (3 : ℚ)/10 ≤ s then (s, e) :: scoreCandidates t rest (e.code :: seen)
      else scoreCandidates t rest (e.code :: seen)

/-- The deduplication aspect of the loop above in isolation: first
occurrence of a non-empty code wins, later candidates with a seen or empty
code are discarded entirely. -/
def dedupAux : List ICD11Term → List String → List ICD11Term
  | [], _ => []
  | e :: rest, seen =>
    if e.code = "" ∨ e.code ∈ seen then dedupAux rest seen
    else e :: dedupAux rest (e.code :: seen)

/-- Dedup stage entry point. -/
def dedupByCode (l : List ICD11Term) : List ICD11Term := dedupAux l []

/-- Descending order on the score component, used to rank scored candidates. -/
def scoreGE (a b : ℚ × ICD11Term) : Prop := b.1 ≤ a.1

instance : DecidableRel scoreGE := fun a b => inferInstanceAs (Decidable (b.1 ≤ a.1))

instance : IsTotal (ℚ × ICD11Term) scoreGE := ⟨fun a b => le_total b.1 a.1⟩

instance : IsTrans (ℚ × ICD11Term) scoreGE := ⟨fun _ _ _ h1 h2 => le_trans h2 h1⟩

/-- Model of the sort step (mapping.py line 169): stable descending sort
on the score component (Python's `sort(key=..., reverse=True)` is stable;
a stable insertion sort has identical behaviour). -/
def sortScored (l : List (ℚ × ICD11Term)) : List (ℚ × ICD11Term) :=
  l.insertionSort scoreGE

/-- Confidence-bucket classification (mapping.py lines 175–182). -/
def classifyMethod (confidence : ℚ) : String :=
  if 9/10 ≤ confidence then "exact_match"
  else if 7/10 ≤ confidence then "high_confidence"
  else if 5/10 ≤ confidence then "partial_match"
  else "fuzzy_match"

/-- The body of the `try` block of `map_namaste_to_icd11`
(mapping.py lines 86–206) after the cache check: collect, dedup/score/filter,
rank, classify. The boolean records whether the result was written to the
cache (line 199, reached only on the path that collected raw candidates). -/
def mapBody (search : SearchOracle) (t : NAMASTETerm) : Except String (MappingResult × Bool) :=
  let collected := collectResults search (queriesOf t)
  if collected.1 = [] then
    .ok ({ namaste_term := t, icd11_matches := [], confidence_score := 0,
           mapping_method := if collected.2 ≠ [] then "search_failed" else "no_results" }, false)
  else
    let scored := sortScored (scoreCandidates t collected.1 [])
    let top_matches := (scored.take 5).map Prod.snd
    match scored with
    | [] =>
      .ok ({ namaste_term := t, icd11_matches := top_matches, confidence_score := 0,
             mapping_method := "no_match_above_threshold" }, true)
    | p :: _ =>
      .ok ({ namaste_term := t, icd11_matches := top_matches, confidence_score := p.1,
             mapping_method := classifyMethod p.1 }, true)

/-- The mapping cache (`self.mapping_cache`): association list, newest
write first. -/
abbrev Cache : Type := List (String × MappingResult)

/-- Dict lookup on the modelled cache. -/
def cacheLookup (cache : Cache) (k : String) : Option MappingResult :=
  (cache.find? (fun p => decide (p.1 = k))).map Prod.snd

/-- The `system_error` fallback result built by the outermost `except`
clause (mapping.py lines 210–216). -/
def systemErrorResult (t : NAMASTETerm) : MappingResult :=
  { namaste_term := t, icd11_matches := [], confidence_score := 0,
    mapping_method := "system_error" }

/-- Observable outcome of one invocation: the returned result, the cache
after the call, and the upstream queries issued during the call. -/
structure MapOut where
  result : MappingResult
  cache : Cache
  queries : List String
deriving DecidableEq, Repr

/-- The outermost exception boundary (the `try`/`except` of mapping.py
lines 86 and 208–216): a normal body outcome is returned (and stored when
the body reached the cache-store line), a raised exception becomes the
`system_error` result, never re-raised and never cached. -/
def finishMapping (t : NAMASTETerm) (cache : Cache) (key : String) (queries : List String) :
    Except String (MappingResult × Bool) → MapOut
  | .ok (r, store) => ⟨r, if store then (key, r) :: cache else cache, queries⟩
  | .error _ => ⟨systemErrorResult t, cache, queries⟩

/-- Model of `MappingService.map_namaste_to_icd11` (mapping.py lines 74–216):
cache check, then the pipeline body under the exception boundary. -/
def map_namaste_to_icd11 (search : SearchOracle) (cache : Cache) (t : NAMASTETerm) : MapOut :=
  let key := "map_" ++ t.id
  match cacheLookup cache key with
  | some r => ⟨r, cache, []⟩
  | none => finishMapping t cache key (queriesOf t) (mapBody search t)

/-- Summary block of `bulk_map_terms` (bulk_mapping.py lines 46–51),
comparison strings exactly as written in the source. -/
structure BulkSummary where
  exact_matches : Nat
  partial_matches : Nat
  fuzzy_matches : Nat
  no_matches : Nat
deriving DecidableEq, Repr

/-- The histogram computed by `bulk_map_terms` over the per-term results. -/
def bulkSummary (mappings : List MappingResult) : BulkSummary :=
  { exact_matches := mappings.countP (fun m => decide (m.mapping_method = "exact match")),
    partial_matches := mappings.countP (fun m => decide (m.mapping_method = "partial_match")),
    fuzzy_matches := mappings.countP (fun m => decide (m.mapping_method = "fuzzy_match")),
    no_matches := mappings.countP (fun m => decide (m.mapping_method = "no_match")) }

/-! ### Concrete fixtures used by counterexamples and witnesses -/

/-- The spec's running example source term: Jwara with synonyms Fever, Pyrexia. -/
def jwaraTerm : NAMASTETerm :=
  { id := "AYU001", term := "Jwara", synonyms := ["Fever", "Pyrexia"] }

/-- The spec's running example candidate: code MG26, title Fever, no synonyms. -/
def mg26Plain : ICD11Term := { code := "MG26", title := "Fever", synonyms := [] }

/-- Variant of the MG26 candidate whose synonym list contains "Fever". -/
def mg26Syn : ICD11Term := { code := "MG26", title := "Fever", synonyms := ["Fever"] }

/-- Oracle returning exactly the plain MG26 candidate for the main query. -/
def oracleMG26Plain : SearchOracle :=
  fun q => if q = "Jwara" then .ok [mg26Plain] else .ok []

/-- Oracle returning exactly the synonym-bearing MG26 candidate for the main query. -/
def oracleMG26Syn : SearchOracle :=
  fun q => if q = "Jwara" then .ok [mg26Syn] else .ok []

/-- Oracle returning one dissimilar candidate for the main query. -/
def oracleDissimilar : SearchOracle :=
  fun q => if q = "Jwara" then .ok [{ code := "X1", title := "Zzz" }] else .ok []

/-- Oracle whose every query succeeds with no candidates. -/
def oracleEmpty : SearchOracle := fun _ => .ok []

/-! ### Claim theorems -/

/-- C1 counterexample: on the claim's exact input — source term Jwara with
synonyms [Fever, Pyrexia], candidate collection yielding exactly one
candidate {code MG26, title Fever, synonyms []}, no query failing — the code
returns mapping_method "no_match_above_threshold", confidence 0.0 and an
empty match list, not the claimed exact_match/0.95/[MG26]: the synonym
cross-match only compares source synonyms against candidate synonyms, and
this candidate's synonym list is empty. -/
theorem C1_counterexample :
    (map_namaste_to_icd11 oracleMG26Plain [] jwaraTerm).result.mapping_method
        = "no_match_above_threshold" ∧
    (map_namaste_to_icd11 oracleMG26Plain [] jwaraTerm).result.mapping_method
        ≠ "exact_match" ∧
    (map_namaste_to_icd11 oracleMG26Plain [] jwaraTerm).result.confidence_score ≠ 19/20 ∧
    (map_namaste_to_icd11 oracleMG26Plain [] jwaraTerm).result.icd11_matches = [] := by
  refine ⟨?_, ?_, ?_, ?_⟩ <;> with_unfolding_all decide


/-- C1 amended: the claimed outcome does hold once the candidate's synonym
list contains "Fever": with source term Jwara (synonyms [Fever, Pyrexia])
and the single candidate {code MG26, title Fever, synonyms ["Fever"]}, the
synonym cross-match 1.0 × 0.95 dominates the zero base score, giving
confidence_score 0.95, mapping_method "exact_match" and exactly the MG26
entry as match list. -/
theorem C1_amended_exact_match :
    (map_namaste_to_icd11 oracleMG26Syn [] jwaraTerm).result.confidence_score = 19/20 ∧
    (map_namaste_to_icd11 oracleMG26Syn [] jwaraTerm).result.mapping_method = "exact_match" ∧
    (map_namaste_to_icd11 oracleMG26Syn [] jwaraTerm).result.icd11_matches = [mg26Syn] := by
  refine ⟨?_, ?_, ?_⟩ <;> with_unfolding_all decide

/-- C2 counterexample: an orchestration in which a raw candidate is
collected but no candidate survives Scoring/Filtering (one candidate with
dissimilar title, scoring 0 < 0.3, no query failure) returns
mapping_method "no_match_above_threshold" — not the claimed "no_results". -/
theorem C2_counterexample :
    (map_namaste_to_icd11 oracleDissimilar [] jwaraTerm).result.mapping_method
        = "no_match_above_threshold" ∧
    (map_namaste_to_icd11 oracleDissimilar [] jwaraTerm).result.mapping_method
        ≠ "no_results" ∧
    (map_namaste_to_icd11 oracleDissimilar [] jwaraTerm).result.mapping_method
        ≠ "search_failed" := by
  refine ⟨?_, ?_, ?_⟩ <;> with_unfolding_all decide

/-- C3 counterexample: when every query succeeds with zero candidates, the
first call returns a "no_results" MappingResult that is NOT cached, so the
second immediate call for the same identifier finds no cache entry and
issues the upstream queries again — contradicting the claim that the
second call always finds a cache entry and issues no queries. -/
theorem C3_counterexample :
    cacheLookup (map_namaste_to_icd11 oracleEmpty [] jwaraTerm).cache "map_AYU001" = none ∧
    (map_namaste_to_icd11 oracleEmpty
        (map_namaste_to_icd11 oracleEmpty [] jwaraTerm).cache jwaraTerm).queries
      = ["Jwara", "Fever", "Pyrexia"] := by
  refine ⟨?_, ?_⟩ <;> with_unfolding_all decide

/-- C8 counterexample: inputs that are non-empty strings but empty after
lower-casing and whitespace-trimming do not score 0.0: the code's
empty-input guard runs on the raw inputs, so " " vs " " normalizes to
"" = "" and scores 1.0, and " " vs "a" takes the substring branch
("" is a substring of "a") and scores 0.7. -/
theorem C8_counterexample :
    normChars " " = [] ∧
    calculate_similarity_score " " " " = 1 ∧
    calculate_similarity_score " " "a" = 7/10 := by
  refine ⟨?_, ?_, ?_⟩ <;> with_unfolding_all decide


/-- C7: the partial-match and fuzzy-match counters of the bulk summary do
count mapping_method "partial_match" and "fuzzy_match", but the exact-match
counter compares against the string "exact match" (with a space), which
`map_namaste_to_icd11` never produces: on a batch whose single result has
mapping_method "exact_match" the counter reports 0 while one such result
is present. -/
theorem C7_bulk_summary_exact_counter :
    (∀ mappings : List MappingResult,
        (bulkSummary mappings).partial_matches
          = mappings.countP (fun m => decide (m.mapping_method = "partial_match")) ∧
        (bulkSummary mappings).fuzzy_matches
          = mappings.countP (fun m => decide (m.mapping_method = "fuzzy_match"))) ∧
    (bulkSummary [(map_namaste_to_icd11 oracleMG26Syn [] jwaraTerm).result]).exact_matches
        = 0 ∧
    ([(map_namaste_to_icd11 oracleMG26Syn [] jwaraTerm).result].countP
        (fun m => decide (m.mapping_method = "exact_match"))) = 1 := by
  refine ⟨fun mappings => ⟨rfl, rfl⟩, ?_, ?_⟩ <;> with_unfolding_all decide

/-! ### Helper lemmas on the pipeline structure -/

theorem cacheLookup_cons_self (c : Cache) (k : String) (r : MappingResult) :
    cacheLookup ((k, r) :: c) k = some r := by
  simp [cacheLookup, List.find?]

theorem map_eq_of_hit {search : SearchOracle} {cache : Cache} {t : NAMASTETerm}
    {r : MappingResult} (h : cacheLookup cache ("map_" ++ t.id) = some r) :
    map_namaste_to_icd11 search cache t = ⟨r, cache, []⟩ := by
  simp [map_namaste_to_icd11, h]

theorem map_eq_of_miss {search : SearchOracle} {cache : Cache} {t : NAMASTETerm}
    (h : cacheLookup cache ("map_" ++ t.id) = none) :
    map_namaste_to_icd11 search cache t
      = finishMapping t cache ("map_" ++ t.id) (queriesOf t) (mapBody search t) := by
  simp [map_namaste_to_icd11, h]

theorem mapBody_collect_nil {search : SearchOracle} {t : NAMASTETerm}
    (h : (collectResults search (queriesOf t)).1 = []) :
    mapBody search t
      = .ok ({ namaste_term := t, icd11_matches := [], confidence_score := 0,
               mapping_method :=
                 if (collectResults search (queriesOf t)).2 ≠ [] then "search_failed"
                 else "no_results" }, false) := by
  simp only [mapBody, h]
  simp

theorem mapBody_scored_nil {search : SearchOracle} {t : NAMASTETerm}
    (h : (collectResults search (queriesOf t)).1 ≠ [])
    (h2 : scoreCandidates t (collectResults search (queriesOf t)).1 [] = []) :
    mapBody search t
      = .ok ({ namaste_term := t, icd11_matches := [], confidence_score := 0,
               mapping_method := "no_match_above_threshold" }, true) := by
  simp only [mapBody, h, h2]
  simp [sortScored]

theorem mapBody_scored_cons {search : SearchOracle} {t : NAMASTETerm}
    {p : ℚ × ICD11Term} {rest : List (ℚ × ICD11Term)}
    (h : (collectResults search (queriesOf t)).1 ≠ [])
    (h2 : sortScored (scoreCandidates t (collectResults search (queriesOf t)).1 [])
            = p :: rest) :
    mapBody search t
      = .ok ({ namaste_term := t,
               icd11_matches := ((p :: rest).take 5).map Prod.snd,
               confidence_score := p.1,
               mapping_method := classifyMethod p.1 }, true) := by
  simp only [mapBody, h, h2]
  simp

theorem mapBody_ok (search : SearchOracle) (t : NAMASTETerm) :
    ∃ v, mapBody search t = .ok v := by
  by_cases h : (collectResults search (queriesOf t)).1 = []
  · exact ⟨_, mapBody_collect_nil h⟩
  · cases h2 : sortScored (scoreCandidates t (collectResults search (queriesOf t)).1 []) with
    | nil =>
      have h3 : scoreCandidates t (collectResults search (queriesOf t)).1 [] = [] := by
        have hp := List.perm_insertionSort scoreGE
          (scoreCandidates t (collectResults search (queriesOf t)).1 [])
        unfold sortScored at h2
        rw [h2] at hp
        exact hp.symm.eq_nil
      exact ⟨_, mapBody_scored_nil h h3⟩
    | cons p rest => exact ⟨_, mapBody_scored_cons h h2⟩

theorem classifyMethod_not_failure (c : ℚ) :
    classifyMethod c ≠ "no_results" ∧ classifyMethod c ≠ "search_failed" ∧
    classifyMethod c ≠ "system_error" ∧ classifyMethod c ≠ "no_match_above_threshold" := by
  unfold classifyMethod
  split
  · exact ⟨by decide, by decide, by decide, by decide⟩
  · split
    · exact ⟨by decide, by decide, by decide, by decide⟩
    · split
      · exact ⟨by decide, by decide, by decide, by decide⟩
      · exact ⟨by decide, by decide, by decide, by decide⟩


theorem mapBody_store_of_collect {search : SearchOracle} {t : NAMASTETerm}
    (h : (collectResults search (queriesOf t)).1 ≠ []) :
    ∃ r, mapBody search t = .ok (r, true) ∧
      (r.mapping_method = "no_match_above_threshold" ∨
        ∃ c, r.mapping_method = classifyMethod c) := by
  cases h2 : sortScored (scoreCandidates t (collectResults search (queriesOf t)).1 []) with
  | nil =>
    have h3 : scoreCandidates t (collectResults search (queriesOf t)).1 [] = [] := by
      have hp := List.perm_insertionSort scoreGE
        (scoreCandidates t (collectResults search (queriesOf t)).1 [])
      unfold sortScored at h2
      rw [h2] at hp
      exact hp.symm.eq_nil
    exact ⟨_, mapBody_scored_nil h h3, Or.inl rfl⟩
  | cons p rest => exact ⟨_, mapBody_scored_cons h h2, Or.inr ⟨p.1, rfl⟩⟩

/-- C2 amended: when a cache miss occurs, the returned mapping_method is
"search_failed"/"no_results" exactly when candidate collection yields no
raw candidate at all (search_failed iff some query failed); if raw
candidates were collected but none survives Scoring/Filtering the method is
"no_match_above_threshold" instead — in every such case the match list is
empty and confidence_score is 0.0. -/
theorem C2_amended (search : SearchOracle) (cache : Cache) (t : NAMASTETerm)
    (hmiss : cacheLookup cache ("map_" ++ t.id) = none) :
    ((collectResults search (queriesOf t)).1 = [] →
      (map_namaste_to_icd11 search cache t).result.mapping_method
          = (if (collectResults search (queriesOf t)).2 ≠ [] then "search_failed"
             else "no_results") ∧
      (map_namaste_to_icd11 search cache t).result.icd11_matches = [] ∧
      (map_namaste_to_icd11 search cache t).result.confidence_score = 0) ∧
    ((collectResults search (queriesOf t)).1 ≠ [] →
      scoreCandidates t (collectResults search (queriesOf t)).1 [] = [] →
      (map_namaste_to_icd11 search cache t).result.mapping_method
          = "no_match_above_threshold" ∧
      (map_namaste_to_icd11 search cache t).result.icd11_matches = [] ∧
      (map_namaste_to_icd11 search cache t).result.confidence_score = 0) := by
  rw [map_eq_of_miss hmiss]
  constructor
  · intro h
    rw [mapBody_collect_nil h]
    exact ⟨rfl, rfl, rfl⟩
  · intro h h2
    rw [mapBody_scored_nil h h2]
    exact ⟨rfl, rfl, rfl⟩

theorem C2_amended_witness :
    (map_namaste_to_icd11 oracleEmpty [] jwaraTerm).result.mapping_method = "no_results" ∧
    (map_namaste_to_icd11 oracleEmpty [] jwaraTerm).result.icd11_matches = [] ∧
    (map_namaste_to_icd11 oracleEmpty [] jwaraTerm).result.confidence_score = 0 := by
  have h := (C2_amended oracleEmpty [] jwaraTerm (by with_unfolding_all decide)).1
    (by with_unfolding_all decide)
  refine ⟨?_, h.2.1, h.2.2⟩
  rw [h.1, if_neg]
  intro hc
  exact hc (by with_unfolding_all decide)

/-- C3 amended: results are cached only on the path that collected at least
one raw candidate; provided the first (cache-missing) call collected one,
the second immediate call for the same identifier finds the cache entry,
returns the first call's MappingResult unchanged, leaves the cache
unchanged and issues no upstream queries. A first call that returns a
no_results/search_failed/system_error result stores nothing, and the
second call re-executes the pipeline. -/
theorem C3_amended (search : SearchOracle) (cache : Cache) (t : NAMASTETerm)
    (hmiss : cacheLookup cache ("map_" ++ t.id) = none)
    (hcand : (collectResults search (queriesOf t)).1 ≠ []) :
    map_namaste_to_icd11 search (map_namaste_to_icd11 search cache t).cache t
      = ⟨(map_namaste_to_icd11 search cache t).result,
         (map_namaste_to_icd11 search cache t).cache, []⟩ := by
  rw [map_eq_of_miss hmiss]
  obtain ⟨r, hr, -⟩ := mapBody_store_of_collect hcand
  rw [hr]
  exact map_eq_of_hit (cacheLookup_cons_self cache ("map_" ++ t.id) r)

theorem C3_amended_witness :
    map_namaste_to_icd11 oracleMG26Syn
        (map_namaste_to_icd11 oracleMG26Syn [] jwaraTerm).cache jwaraTerm
      = ⟨(map_namaste_to_icd11 oracleMG26Syn [] jwaraTerm).result,
         (map_namaste_to_icd11 oracleMG26Syn [] jwaraTerm).cache, []⟩ :=
  C3_amended oracleMG26Syn [] jwaraTerm (by with_unfolding_all decide)
    (by with_unfolding_all decide)

/-- C4: the outermost exception boundary (the only `except Exception`
clause of `map_namaste_to_icd11`) converts any exception raised by the
pipeline body into a well-formed MappingResult with empty matches,
confidence 0.0 and mapping_method "system_error", leaving the cache
untouched and re-raising nothing; moreover the modelled pipeline body
itself always returns normally for every search oracle (its per-query
errors are caught inside candidate collection), so no exception ever
propagates to the caller. -/
theorem C4_system_error_boundary :
    (∀ (t : NAMASTETerm) (cache : Cache) (key : String) (queries : List String) (e : String),
        finishMapping t cache key queries (.error e)
          = ⟨systemErrorResult t, cache, queries⟩) ∧
    (∀ t : NAMASTETerm,
        (systemErrorResult t).icd11_matches = [] ∧
        (systemErrorResult t).confidence_score = 0 ∧
        (systemErrorResult t).mapping_method = "system_error") ∧
    (∀ (search : SearchOracle) (t : NAMASTETerm), ∃ v, mapBody search t = .ok v) :=
  ⟨fun _ _ _ _ _ => rfl, fun _ => ⟨rfl, rfl, rfl⟩, mapBody_ok⟩

/-- C9: an invocation whose returned mapping_method is "no_results",
"search_failed" or "system_error" leaves the mapping cache unchanged:
those failure results are never written to the cache. -/
theorem C9_failures_not_cached (search : SearchOracle) (cache : Cache) (t : NAMASTETerm)
    (h : (map_namaste_to_icd11 search cache t).result.mapping_method = "no_results" ∨
         (map_namaste_to_icd11 search cache t).result.mapping_method = "search_failed" ∨
         (map_namaste_to_icd11 search cache t).result.mapping_method = "system_error") :
    (map_namaste_to_icd11 search cache t).cache = cache := by
  cases hc : cacheLookup cache ("map_" ++ t.id) with
  | some r => rw [map_eq_of_hit hc]
  | none =>
    rw [map_eq_of_miss hc]
    by_cases hcand : (collectResults search (queriesOf t)).1 = []
    · rw [mapBody_collect_nil hcand]
      rfl
    · exfalso
      obtain ⟨r, hr, hm⟩ := mapBody_store_of_collect hcand
      rw [map_eq_of_miss hc, hr] at h
      have hrm : (finishMapping t cache ("map_" ++ t.id) (queriesOf t)
          (.ok (r, true))).result = r := rfl
      rw [hrm] at h
      rcases hm with hm | ⟨c, hm⟩
      · rw [hm] at h
        rcases h with h | h | h <;> exact absurd h (by decide)
      · rw [hm] at h
        have hnf := classifyMethod_not_failure c
        rcases h with h | h | h
        · exact hnf.1 h
        · exact hnf.2.1 h
        · exact hnf.2.2.1 h

theorem C9_witness :
    (map_namaste_to_icd11 oracleEmpty [] jwaraTerm).cache = [] :=
  C9_failures_not_cached oracleEmpty [] jwaraTerm
    (Or.inl (by with_unfolding_all decide))


theorem finishMapping_ok_result (t : NAMASTETerm) (cache : Cache) (key : String)
    (qs : List String) (r : MappingResult) (b : Bool) :
    (finishMapping t cache key qs (.ok (r, b))).result = r := rfl

theorem scoreCandidates_code_ne {t : NAMASTETerm} :
    ∀ {l : List ICD11Term} {seen : List String} {p : ℚ × ICD11Term},
      p ∈ scoreCandidates t l seen → p.2.code ≠ "" := by
  intro l
  induction l with
  | nil => intro seen p hp; simp [scoreCandidates] at hp
  | cons e rest ih =>
    intro seen p hp
    simp only [scoreCandidates] at hp
    split at hp
    · exact ih hp
    · rename_i hskip
      split at hp
      · rcases List.mem_cons.mp hp with h | h
        · subst h
          intro hc
          exact hskip (Or.inl hc)
        · exact ih h
      · exact ih hp

theorem mem_sortScored {l : List (ℚ × ICD11Term)} {p : ℚ × ICD11Term} :
    p ∈ sortScored l → p ∈ l := by
  intro h
  exact (List.perm_insertionSort scoreGE l).mem_iff.mp h

/-- C10: every candidate with an empty code is skipped by the
dedup/score loop, so — provided every result already in the cache has only
non-empty codes, which this routine guarantees for everything it stores —
every entry of the returned match list has a non-empty code. -/
theorem C10_matches_have_code (search : SearchOracle) (cache : Cache) (t : NAMASTETerm)
    (hcache : ∀ p ∈ cache, ∀ e ∈ p.2.icd11_matches, e.code ≠ "") :
    ∀ e ∈ (map_namaste_to_icd11 search cache t).result.icd11_matches, e.code ≠ "" := by
  cases hc : cacheLookup cache ("map_" ++ t.id) with
  | some r =>
    rw [map_eq_of_hit hc]
    intro e he
    unfold cacheLookup at hc
    cases hfind : cache.find? (fun p => decide (p.1 = "map_" ++ t.id)) with
    | none => rw [hfind] at hc; simp at hc
    | some q =>
      rw [hfind] at hc
      obtain rfl : q.2 = r := by simpa using hc
      exact hcache q (List.mem_of_find?_eq_some hfind) e he
  | none =>
    rw [map_eq_of_miss hc]
    by_cases hcand : (collectResults search (queriesOf t)).1 = []
    · rw [mapBody_collect_nil hcand]
      intro e he
      simp [finishMapping_ok_result] at he
    · cases h2 : sortScored (scoreCandidates t (collectResults search (queriesOf t)).1 []) with
      | nil =>
        have h3 : scoreCandidates t (collectResults search (queriesOf t)).1 [] = [] := by
          have hp := List.perm_insertionSort scoreGE
            (scoreCandidates t (collectResults search (queriesOf t)).1 [])
          unfold sortScored at h2
          rw [h2] at hp
          exact hp.symm.eq_nil
        rw [mapBody_scored_nil hcand h3]
        intro e he
        simp [finishMapping_ok_result] at he
      | cons p rest =>
        rw [mapBody_scored_cons hcand h2]
        intro e he
        rw [finishMapping_ok_result] at he
        simp only [List.mem_map] at he
        obtain ⟨q, hq, rfl⟩ := he
        have hq2 : q ∈ sortScored (scoreCandidates t (collectResults search (queriesOf t)).1 []) := by
          rw [h2]
          exact (List.take_sublist 5 (p :: rest)).mem hq
        exact scoreCandidates_code_ne (mem_sortScored hq2)

theorem C10_witness : mg26Syn.code ≠ "" :=
  C10_matches_have_code oracleMG26Syn [] jwaraTerm
    (fun p hp => absurd hp (List.not_mem_nil p)) mg26Syn (by with_unfolding_all decide)


/-- Helper: every pair kept by the dedup/score/filter loop carries as its
first component exactly the final score of its candidate — the value that
later ranks it. -/
theorem scoreCandidates_fst {t : NAMASTETerm} :
    ∀ {l : List ICD11Term} {seen : List String} {p : ℚ × ICD11Term},
      p ∈ scoreCandidates t l seen → p.1 = finalScore t p.2 := by
  intro l
  induction l with
  | nil => intro seen p hp; simp [scoreCandidates] at hp
  | cons e rest ih =>
    intro seen p hp
    simp only [scoreCandidates] at hp
    split at hp
    · exact ih hp
    · split at hp
      · rcases List.mem_cons.mp hp with h | h
        · subst h; rfl
        · exact ih h
      · exact ih hp

/-- Well-formedness of a MappingResult as asserted by the spec's invariants:
at most 5 matches, listed in non-increasing order of the final scores that
ranked them (the final score of an entry against the result's own source
term, the exact value the scoring loop pairs with it), confidence_score
equal to the final score of entry 0 when the match list is non-empty and
0.0 when it is empty. -/
def ResultWF (r : MappingResult) : Prop :=
  r.icd11_matches.length ≤ 5 ∧
  (r.icd11_matches.map (finalScore r.namaste_term)).Sorted (fun a b => b ≤ a) ∧
  (∀ e, r.icd11_matches.head? = some e →
    r.confidence_score = finalScore r.namaste_term e) ∧
  (r.icd11_matches = [] → r.confidence_score = 0)

theorem emptyResultWF {r : MappingResult} (h1 : r.icd11_matches = [])
    (h2 : r.confidence_score = 0) : ResultWF r := by
  refine ⟨by simp [h1], by simp [h1], ?_, fun _ => h2⟩
  intro e he
  rw [h1] at he
  simp at he

/-- C5: every returned MappingResult satisfies the ranking invariant —
at most 5 matches, listed in non-increasing order of the final scores that
ranked them, confidence_score equal to the final score of entry 0 when
matches is non-empty and 0.0 otherwise — provided every result already
cached satisfies it, which this routine guarantees for everything it
stores. -/
theorem C5_result_ranked (search : SearchOracle) (cache : Cache) (t : NAMASTETerm)
    (hcache : ∀ p ∈ cache, ResultWF p.2) :
    ResultWF (map_namaste_to_icd11 search cache t).result := by
  cases hc : cacheLookup cache ("map_" ++ t.id) with
  | some r =>
    rw [map_eq_of_hit hc]
    unfold cacheLookup at hc
    cases hfind : cache.find? (fun p => decide (p.1 = "map_" ++ t.id)) with
    | none => rw [hfind] at hc; simp at hc
    | some q =>
      rw [hfind] at hc
      obtain rfl : q.2 = r := by simpa using hc
      exact hcache q (List.mem_of_find?_eq_some hfind)
  | none =>
    rw [map_eq_of_miss hc]
    by_cases hcand : (collectResults search (queriesOf t)).1 = []
    · rw [mapBody_collect_nil hcand]
      exact emptyResultWF rfl rfl
    · cases h2 : sortScored (scoreCandidates t (collectResults search (queriesOf t)).1 []) with
      | nil =>
        have h3 : scoreCandidates t (collectResults search (queriesOf t)).1 [] = [] := by
          have hp := List.perm_insertionSort scoreGE
            (scoreCandidates t (collectResults search (queriesOf t)).1 [])
          unfold sortScored at h2
          rw [h2] at hp
          exact hp.symm.eq_nil
        rw [mapBody_scored_nil hcand h3]
        exact emptyResultWF rfl rfl
      | cons p rest =>
        rw [mapBody_scored_cons hcand h2]
        rw [ResultWF, finishMapping_ok_result]
        have hsorted : List.Sorted scoreGE (p :: rest) := by
          rw [← h2]
          exact List.sorted_insertionSort scoreGE _
        have htake : List.Sorted scoreGE ((p :: rest).take 5) :=
          hsorted.sublist (List.take_sublist 5 (p :: rest))
        have hfst : ∀ q ∈ (p :: rest).take 5, q.1 = finalScore t q.2 := by
          intro q hq
          have hq2 : q ∈ sortScored
              (scoreCandidates t (collectResults search (queriesOf t)).1 []) := by
            rw [h2]
            exact (List.take_sublist 5 (p :: rest)).mem hq
          exact scoreCandidates_fst (mem_sortScored hq2)
        have hmap : (((p :: rest).take 5).map Prod.snd).map (finalScore t)
            = ((p :: rest).take 5).map Prod.fst := by
          rw [List.map_map]
          exact List.map_congr_left (fun q hq => (hfst q hq).symm)
        refine ⟨?_, ?_, ?_, ?_⟩
        · simp only [List.length_map]
          exact List.length_take_le 5 (p :: rest)
        · show ((((p :: rest).take 5).map Prod.snd).map (finalScore t)).Sorted
            (fun a b => b ≤ a)
          rw [hmap, List.Sorted, List.pairwise_map]
          exact htake
        · intro e he
          have hp2 : p ∈ sortScored
              (scoreCandidates t (collectResults search (queriesOf t)).1 []) := by
            rw [h2]
            exact List.mem_cons_self p rest
          have hp1 : p.1 = finalScore t p.2 := scoreCandidates_fst (mem_sortScored hp2)
          have he2 : (((p :: rest).take 5).map Prod.snd).head? = some e := he
          have ht5 : ((p :: rest).take 5).map Prod.snd
              = p.2 :: ((rest.take 4).map Prod.snd) := rfl
          rw [ht5] at he2
          obtain rfl : p.2 = e := by simpa using he2
          exact hp1
        · intro h
          simp [List.take_cons] at h

theorem C5_witness : ResultWF (map_namaste_to_icd11 oracleMG26Syn [] jwaraTerm).result :=
  C5_result_ranked oracleMG26Syn [] jwaraTerm
    (fun p hp => absurd hp (List.not_mem_nil p))


theorem ratio_bounds (m n : Nat) :
    0 ≤ ((min m n : ℚ) / (max m n : ℚ)) ∧ ((min m n : ℚ) / (max m n : ℚ)) ≤ 1 :=
  ⟨div_nonneg (by positivity) (by positivity),
   div_le_one_of_le₀ (by exact_mod_cast min_le_max) (by positivity)⟩

theorem jaccard_le_one (w1 w2 : List (List Char)) (h1 : w1.Nodup) :
    ((w1.filter (fun w => w ∈ w2)).length : ℚ) / (((w1 ++ w2).dedup).length : ℚ) ≤ 1 := by
  have hnodup : (w1.filter (fun w => w ∈ w2)).Nodup := h1.filter _
  have hsub : (w1.filter (fun w => w ∈ w2)) ⊆ (w1 ++ w2).dedup := by
    intro x hx
    rw [List.mem_dedup, List.mem_append]
    exact Or.inl (List.mem_of_mem_filter hx)
  have hlen : (w1.filter (fun w => w ∈ w2)).length ≤ ((w1 ++ w2).dedup).length :=
    (List.subperm_of_subset hnodup hsub).length_le
  exact div_le_one_of_le₀ (by exact_mod_cast hlen) (by positivity)

theorem similarity_nonneg (a b : String) : 0 ≤ calculate_similarity_score a b := by
  unfold calculate_similarity_score
  dsimp only
  split
  · exact le_refl 0
  · split
    · norm_num
    · split
      · obtain ⟨hr0, hr1⟩ := ratio_bounds (normChars a).length (normChars b).length
        nlinarith
      · split
        · exact le_refl 0
        · split
          · exact le_refl 0
          · positivity

theorem similarity_le_one (a b : String) : calculate_similarity_score a b ≤ 1 := by
  unfold calculate_similarity_score
  dsimp only
  split
  · norm_num
  · split
    · exact le_refl 1
    · split
      · obtain ⟨hr0, hr1⟩ := ratio_bounds (normChars a).length (normChars b).length
        nlinarith
      · split
        · norm_num
        · split
          · norm_num
          · exact jaccard_le_one _ _ (List.nodup_dedup _)

/-- C8 amended: the scorer's output always lies in [0, 1], and a raw empty
string on either side yields 0.0; the empty-input guard runs before
normalization, so it is emptiness of the raw inputs — not emptiness after
lower-casing and whitespace-trimming — that forces 0.0 (see the
counterexample for whitespace-only inputs). -/
theorem C8_amended (a b : String) :
    0 ≤ calculate_similarity_score a b ∧ calculate_similarity_score a b ≤ 1 ∧
    ((a = "" ∨ b = "") → calculate_similarity_score a b = 0) := by
  refine ⟨similarity_nonneg a b, similarity_le_one a b, fun h => ?_⟩
  unfold calculate_similarity_score
  rw [if_pos h]

theorem C8_witness :
    calculate_similarity_score "" "fever" = 0 ∧ 0 ≤ calculate_similarity_score "Jwara" "Fever" :=
  ⟨(C8_amended "" "fever").2.2 (Or.inl rfl), (C8_amended "Jwara" "Fever").1⟩


theorem scoreCandidates_eq_dedupAux (t : NAMASTETerm) :
    ∀ (l : List ICD11Term) (seen : List String),
      scoreCandidates t l seen
        = (dedupAux l seen).filterMap (fun e =>
            if (3 : ℚ)/10 ≤ finalScore t e then some (finalScore t e, e) else none) := by
  intro l
  induction l with
  | nil => intro seen; simp [scoreCandidates, dedupAux]
  | cons e rest ih =>
    intro seen
    simp only [scoreCandidates, dedupAux]
    split
    · exact ih seen
    · simp only [List.filterMap_cons]
      split
      · exact congrArg (List.cons _) (ih (e.code :: seen))
      · exact ih (e.code :: seen)

theorem dedupAux_filter_eq_nil {c : String} :
    ∀ {l : List ICD11Term} {seen : List String},
      (c ∈ seen ∨ ∀ x ∈ l, x.code ≠ c) →
      (dedupAux l seen).filter (fun x => decide (x.code = c)) = [] := by
  intro l
  induction l with
  | nil => intro seen _; simp [dedupAux]
  | cons e rest ih =>
    intro seen h
    simp only [dedupAux]
    split
    · refine ih ?_
      rcases h with h | h
      · exact Or.inl h
      · exact Or.inr (fun x hx => h x (List.mem_cons_of_mem e hx))
    · rename_i hkeep
      have hec : e.code ≠ c := by
        rcases h with h | h
        · intro hc
          exact hkeep (Or.inr (hc ▸ h))
        · exact h e (List.mem_cons_self e rest)
      rw [List.filter_cons_of_neg (by simpa using hec)]
      refine ih ?_
      rcases h with h | h
      · exact Or.inl (List.mem_cons_of_mem e.code h)
      · exact Or.inr (fun x hx => h x (List.mem_cons_of_mem e hx))

theorem dedupAux_filter_find {c : String} :
    ∀ {l : List ICD11Term} {seen : List String} {e : ICD11Term},
      c ≠ "" → c ∉ seen → l.find? (fun x => decide (x.code = c)) = some e →
      (dedupAux l seen).filter (fun x => decide (x.code = c)) = [e] := by
  intro l
  induction l with
  | nil => intro seen e _ _ hfind; simp at hfind
  | cons x rest ih =>
    intro seen e hc hseen hfind
    by_cases hxc : x.code = c
    · have he : x = e := by
        rw [List.find?_cons_of_pos _ (by simpa using hxc)] at hfind
        exact Option.some.inj hfind
      subst he
      simp only [dedupAux]
      rw [if_neg (by rw [hxc]; exact fun h => h.elim hc hseen)]
      rw [List.filter_cons_of_pos (by simpa using hxc)]
      rw [dedupAux_filter_eq_nil (Or.inl (by rw [hxc]; exact List.mem_cons_self c seen))]
    · rw [List.find?_cons_of_neg _ (by simpa using hxc)] at hfind
      simp only [dedupAux]
      split
      · exact ih hc hseen hfind
      · rw [List.filter_cons_of_neg (by simpa using hxc)]
        refine ih hc ?_ hfind
        intro hmem
        rcases List.mem_cons.mp hmem with h | h
        · exact hxc h.symm
        · exact hseen h

theorem dedupAux_pairwise :
    ∀ (l : List ICD11Term) (seen : List String),
      (dedupAux l seen).Pairwise (fun a b => a.code ≠ b.code) ∧
      ∀ x ∈ dedupAux l seen, x.code ∉ seen := by
  intro l
  induction l with
  | nil => intro seen; simp [dedupAux]
  | cons e rest ih =>
    intro seen
    simp only [dedupAux]
    split
    · exact ih seen
    · rename_i hkeep
      obtain ⟨hpw, hmem⟩ := ih (e.code :: seen)
      refine ⟨List.Pairwise.cons ?_ hpw, ?_⟩
      · intro b hb hbc
        exact hmem b hb (hbc ▸ List.mem_cons_self e.code seen)
      · intro x hx
        rcases List.mem_cons.mp hx with h | h
        · subst h
          intro hc
          exact hkeep (Or.inr hc)
        · exact fun hc => hmem x h (List.mem_cons_of_mem e.code hc)

/-- C6: the dedup stage keeps at most one candidate per code value — the
pairwise-distinct-codes property — and when earlier and later queries both
yield candidates with the same non-empty code, the dedup output contains
exactly one entry for that code, namely the first candidate carrying it in
query-issuance order (the earlier query's candidate); later duplicates are
discarded entirely, all fields included. The first conjunct ties the
isolated dedup stage to the fused dedup/score/filter loop actually run by
`map_namaste_to_icd11`. -/
theorem C6_dedup_first_wins :
    (∀ (t : NAMASTETerm) (l : List ICD11Term),
        scoreCandidates t l []
          = (dedupByCode l).filterMap (fun e =>
              if (3 : ℚ)/10 ≤ finalScore t e then some (finalScore t e, e) else none)) ∧
    (∀ l : List ICD11Term, (dedupByCode l).Pairwise (fun a b => a.code ≠ b.code)) ∧
    (∀ (l₁ l₂ : List ICD11Term) (c : String) (e : ICD11Term),
        c ≠ "" →
        l₁.find? (fun x => decide (x.code = c)) = some e →
        (∃ e₂ ∈ l₂, e₂.code = c) →
        (dedupByCode (l₁ ++ l₂)).filter (fun x => decide (x.code = c)) = [e]) := by
  refine ⟨fun t l => scoreCandidates_eq_dedupAux t l [],
    fun l => (dedupAux_pairwise l []).1,
    fun l₁ l₂ c e hc hfind _ => ?_⟩
  refine dedupAux_filter_find hc (List.not_mem_nil c) ?_
  rw [List.find?_append, hfind]
  rfl

/-- Two candidates sharing the code MG26 with different titles, as in the
spec's dedup example. -/
def mg26First : ICD11Term := { code := "MG26", title := "Fever" }

/-- The later duplicate of `mg26First` with different field values. -/
def mg26Second : ICD11Term := { code := "MG26", title := "Pyrexia", category := "Other" }

theorem C6_witness :
    (dedupByCode ([mg26First] ++ [mg26Second])).filter
        (fun x => decide (x.code = "MG26")) = [mg26First] :=
  C6_dedup_first_wins.2.2 [mg26First] [mg26Second] "MG26" mg26First
    (by decide) (by decide) ⟨mg26Second, List.mem_singleton_self mg26Second, rfl⟩

end NamasteICD
